import Mathlib

/-!
# Mapty: workout records, submission handling and persistence

A shallow embedding of `src/script.js` (classes `Workout`, `Running`, `Cycling`
and the controller class `App`).

Conventions of the embedding:

* JavaScript numbers are `JSNum`: a finite number is given by its exact
  rational value, and the three non-finite values `NaN`, `Infinity`,
  `-Infinity` are separate constructors. Division is the IEEE-754 binary64
  division: the exact quotient is rounded to the nearest double, ties to even
  (`JSNum.ofRat`). The two zeros are one value, as they are under `===`.
* JavaScript values are `JSVal`; an object is the list of its own properties in
  creation order. Prototypes are not represented.
* A string held by `localStorage` is represented by the JSON document it spells
  (`JSON`), so `JSON.parse` is total on stored documents.
* Methods of `App` are functions from the controller state to an `Outcome`
  together with the state reached, so that a mutation made before an exception
  is kept.
* What the platform supplies at a call (the unary `+` conversion of a string,
  `new Date()`, `Date.now()`) is an argument of type `Env`.
* The state carries a log of the effects performed, in order; it is only
  written, never read, by the methods.
* The view of the map, the tile layer, `_getPosition`, `_moveToPopup` and
  `_toggleElevationField` are not represented: they touch nothing the
  statements below speak of.
-/

namespace Mapty

/-! ## Numbers -/

/-- A JavaScript number: a finite value or one of the three non-finite ones. -/
inductive JSNum where
  | fin (q : ℚ)
  | nan
  | posInf
  | negInf
  deriving DecidableEq

/-- Number of binary digits of `n`, counted with `fuel` halvings at most. -/
def bitLengthAux : Nat → Nat → Nat
  | 0, _ => 0
  | fuel + 1, n => if n = 0 then 0 else bitLengthAux fuel (n / 2) + 1

/-- Number of binary digits of a natural number (`0` for `0`). -/
def bitLength (n : Nat) : Nat :=
  bitLengthAux n n

/-- The integer `e` with `2 ^ e ≤ n / d < 2 ^ (e + 1)`, for positive `n` and
`d`. -/
def floorLog2 (n d : Nat) : Int :=
  let e0 : Int := (bitLength n : Int) - (bitLength d : Int)
  let atLeast : Bool :=
    if 0 ≤ e0 then decide (d * 2 ^ e0.toNat ≤ n) else decide (d ≤ n * 2 ^ (-e0).toNat)
  if atLeast then e0 else e0 - 1

/-- The integer nearest to `a / b`; when `a / b` lies halfway between two
integers, the even one. -/
def roundHalfEven (a b : Nat) : Nat :=
  let f := a / b
  let r := a % b
  if 2 * r < b then f
  else if b < 2 * r then f + 1
  else if f % 2 = 0 then f else f + 1

namespace JSNum

/-- The Number value for a rational: the nearest binary64 double, ties to even.
With `e` the binary exponent of `|q|`, the spacing of doubles around `q` is
`2 ^ k` for `k = max e (-1022) - 52` (the second argument covers the
subnormal range); `|q|` is rounded to a multiple `r * 2 ^ k`, and a result of
`2 ^ 1024` or more is an infinity. -/
def ofRat (q : ℚ) : JSNum :=
  if q = 0 then fin 0
  else
    let n := q.num.natAbs
    let d := q.den
    let e := floorLog2 n d
    let k : Int := max e (-1022) - 52
    let r : Nat :=
      if 0 ≤ k then roundHalfEven n (d * 2 ^ k.toNat)
      else roundHalfEven (n * 2 ^ (-k).toNat) d
    if 0 ≤ k ∧ 2 ^ 1024 ≤ r * 2 ^ k.toNat then
      (if 0 < q then posInf else negInf)
    else
      let m : ℚ :=
        if 0 ≤ k then ((r * 2 ^ k.toNat : Nat) : ℚ)
        else (r : ℚ) / ((2 ^ (-k).toNat : Nat) : ℚ)
      fin (if 0 < q then m else -m)

/-- The test `Number.isFinite(inp)`. -/
def isFinite : JSNum → Bool
  | fin _ => true
  | _ => false

/-- The comparison `inp > 0`. -/
def gtZero : JSNum → Bool
  | fin q => decide (0 < q)
  | posInf => true
  | _ => false

/-- The operator `a / b` on numbers: for finite operands and a divisor other
than zero, the exact quotient rounded to a double. A zero divisor counts as
`+0`. -/
def div : JSNum → JSNum → JSNum
  | nan, _ => nan
  | _, nan => nan
  | fin a, fin b =>
      if b = 0 then
        (if a = 0 then nan else if 0 < a then posInf else negInf)
      else ofRat (a / b)
  | fin _, posInf => fin 0
  | fin _, negInf => fin 0
  | posInf, fin b => if b < 0 then negInf else posInf
  | negInf, fin b => if b < 0 then posInf else negInf
  | posInf, posInf => nan
  | posInf, negInf => nan
  | negInf, posInf => nan
  | negInf, negInf => nan

end JSNum

/-! ## Dates -/

/-- A `Date` object, given by the three observations the program makes of it:
`getMonth()`, `getDate()` and the text `toJSON()` produces. -/
structure JSDate where
  getMonth : Nat
  getDate : Nat
  toISOString : String
  deriving DecidableEq

/-! ## Values and JSON documents -/

/-- A JavaScript value. An object is the list of its own properties. -/
inductive JSVal where
  | undefined
  | null
  | bool (b : Bool)
  | num (n : JSNum)
  | str (s : String)
  | date (d : JSDate)
  | arr (xs : List JSVal)
  | obj (ps : List (String × JSVal))

/-- A JSON document. -/
inductive JSON where
  | null
  | bool (b : Bool)
  | num (q : ℚ)
  | str (s : String)
  | arr (xs : List JSON)
  | obj (ms : List (String × JSON))

namespace JSVal

/-- Own property lookup in a property list, `undefined` when missing. -/
def lookup (k : String) : List (String × JSVal) → JSVal
  | [] => undefined
  | (k', v) :: ps => if k' = k then v else lookup k ps

/-- Property read `v.k` on a value that is not `null` or `undefined`. -/
def get (v : JSVal) (k : String) : JSVal :=
  match v with
  | obj ps => lookup k ps
  | _ => undefined

/-- Whether a property read on the value throws (`null` and `undefined`). -/
def isNullish : JSVal → Bool
  | undefined => true
  | null => true
  | _ => false

/-- Whether the value is a number (so that `.toFixed` exists on it). -/
def isNum : JSVal → Bool
  | num _ => true
  | _ => false

/-- The test `v === s` against a string literal. -/
def isStr (v : JSVal) (s : String) : Bool :=
  match v with
  | str t => decide (t = s)
  | _ => false

/-- Truthiness, as tested by `!data`. -/
def truthy : JSVal → Bool
  | undefined => false
  | null => false
  | bool b => b
  | num (JSNum.fin q) => decide (q ≠ 0)
  | num JSNum.nan => false
  | num _ => true
  | str s => decide (s ≠ "")
  | date _ => true
  | arr _ => true
  | obj _ => true

end JSVal

mutual
/-- The document `JSON.stringify(v)` spells; `none` when the result is
`undefined`. A `Date` is written through `toJSON`, a non-finite number as
`null`. -/
def stringify : JSVal → Option JSON
  | .undefined => none
  | .null => some .null
  | .bool b => some (.bool b)
  | .num (.fin q) => some (.num q)
  | .num _ => some .null
  | .str s => some (.str s)
  | .date d => some (.str d.toISOString)
  | .arr xs => some (.arr (stringifyElems xs))
  | .obj ps => some (.obj (stringifyProps ps))
/-- Array elements: an element without a document is written `null`. -/
def stringifyElems : List JSVal → List JSON
  | [] => []
  | x :: xs => (stringify x).getD .null :: stringifyElems xs
/-- Object properties: a property without a document is left out. -/
def stringifyProps : List (String × JSVal) → List (String × JSON)
  | [] => []
  | (k, v) :: ps =>
      match stringify v with
      | none => stringifyProps ps
      | some j => (k, j) :: stringifyProps ps
end

mutual
/-- The value `JSON.parse` builds from a document. -/
def parse : JSON → JSVal
  | .null => .null
  | .bool b => .bool b
  | .num q => .num (.fin q)
  | .str s => .str s
  | .arr xs => .arr (parseElems xs)
  | .obj ms => .obj (parseMembers ms)
/-- Elements of a parsed array. -/
def parseElems : List JSON → List JSVal
  | [] => []
  | x :: xs => parse x :: parseElems xs
/-- Properties of a parsed object. -/
def parseMembers : List (String × JSON) → List (String × JSVal)
  | [] => []
  | (k, j) :: ms => (k, parse j) :: parseMembers ms
end

/-! ## Workout records (classes `Workout`, `Running`, `Cycling`) -/

/-- What the platform supplies at one call: the conversion the unary `+`
applies to a string, the object `new Date()` and the integer `Date.now()`. -/
structure Env where
  toNumber : String → JSNum
  newDate : JSDate
  dateNow : Nat

/-- The constant array `months`. -/
def months : List String :=
  ["January", "February", "March", "April", "May", "June", "July", "August",
   "September", "October", "November", "December"]

/-- The expression `type[0].toUpperCase()` followed by `type.slice(1)`. The
class field `type` is one of the two literals, never empty. -/
def capitalized (type : String) : String :=
  match type.data with
  | [] => ""
  | c :: cs => String.mk (c.toUpper :: cs)

/-- The string `_setDescription` assigns to `this.description`. The template
literal runs over two source lines: after the month name it holds the line
break and the eight blanks that indent the second line. -/
def _setDescription (type : String) (date : JSDate) : String :=
  capitalized type ++ " on " ++ months.getD date.getMonth "undefined"
    ++ "\n        " ++ toString date.getDate

/-- The field `id`: the last ten characters of the decimal text of
`Date.now()`. -/
def workoutId (now : Nat) : String :=
  (toString now).takeRight 10

/-- Properties an instance has when the constructor of `Workout` returns: the
two class fields, then the three assignments of the body. -/
def Workout (E : Env) (coords : JSVal) (distance duration : JSNum) :
    List (String × JSVal) :=
  [("date", .date E.newDate), ("id", .str (workoutId E.dateNow)),
   ("coords", coords), ("distance", .num distance), ("duration", .num duration)]

/-- The method `calcPace`: `this.duration / this.distance`. -/
def calcPace (duration distance : JSNum) : JSNum :=
  JSNum.div duration distance

/-- The method `calcSpeed`: `this.distance / (this.duration / 60)`. -/
def calcSpeed (distance duration : JSNum) : JSNum :=
  JSNum.div distance (JSNum.div duration (JSNum.fin 60))

/-- The object `new Running(coords, distance, duration, cadence)`. -/
def Running (E : Env) (coords : JSVal) (distance duration cadence : JSNum) : JSVal :=
  .obj (Workout E coords distance duration ++
    [("type", .str "running"), ("cadence", .num cadence),
     ("pace", .num (calcPace duration distance)),
     ("description", .str (_setDescription "running" E.newDate))])

/-- The object `new Cycling(coords, distance, duration, elevationGain)`. -/
def Cycling (E : Env) (coords : JSVal) (distance duration elevationGain : JSNum) : JSVal :=
  .obj (Workout E coords distance duration ++
    [("type", .str "cycling"), ("elevationGain", .num elevationGain),
     ("speed", .num (calcSpeed distance duration)),
     ("description", .str (_setDescription "cycling" E.newDate))])

/-! ## The controller (class `App`) -/

/-- The `latlng` of a map click event. -/
structure LatLng where
  lat : JSNum
  lng : JSNum
  deriving DecidableEq

/-- A marker on the map, given by what `renderWorkoutMarker` reads from the
record: `workout.coords` (the position) and `workout.type` (popup class and
popup text). -/
structure Marker where
  coords : JSVal
  type : JSVal

/-- An effect a method performs, recorded in order in the field `log` of the
state. -/
inductive Effect where
  | alert (msg : String)
  | showForm
  | focusDistance
  | push (workout : JSVal)
  | marker (m : Marker)
  | entry (workout : JSVal)
  | clearInputs
  | setItem (doc : Option JSON)
  | removeItem
  | reload

/-- How a call ends. -/
inductive Outcome where
  | returned
  | thrown (error : String)
  deriving DecidableEq

/-- The state the controller works on: its three private fields, the part of
the page it reads and writes, the storage slot with key `workouts`, and the log
of effects.

* `map` is `#map`: `none` until `_loadMap` ran, then the markers on the map.
* `mapEvent` is `#mapEvent`: `none` until `_showForm` ran.
* `formHidden` tells whether the form carries the class `hidden`.
* `entries` are the list items that follow the form, nearest first, each given
  by the record it was rendered from.
* `localStorage` is the slot `workouts`: `none` when absent. -/
structure App where
  map : Option (List Marker)
  mapEvent : Option LatLng
  workouts : List JSVal
  formHidden : Bool
  inputType : String
  inputDistance : String
  inputDuration : String
  inputCadence : String
  inputElevation : String
  entries : List JSVal
  localStorage : Option JSON
  log : List Effect

/-- Sequencing of two calls: the second runs only when the first returned. -/
def Outcome.andThen (r : Outcome × App) (f : App → Outcome × App) : Outcome × App :=
  match r with
  | (.returned, s) => f s
  | (.thrown e, s) => (.thrown e, s)

/-- The call `alert(msg)`. -/
def alert (s : App) (msg : String) : App :=
  { s with log := s.log ++ [.alert msg] }

/-- The method `_showForm(mapE)`. -/
def _showForm (s : App) (mapE : LatLng) : App :=
  { s with mapEvent := some mapE, formHidden := false,
           log := s.log ++ [.showForm, .focusDistance] }

/-- The method `renderWorkoutMarker(workout)`. Reading `workout.coords` throws
on `undefined` and `null`; `addTo` throws when `#map` is still `undefined`. -/
def renderWorkoutMarker (s : App) (workout : JSVal) : Outcome × App :=
  if workout.isNullish then (.thrown "TypeError", s)
  else
    match s.map with
    | none => (.thrown "TypeError", s)
    | some markers =>
        let m : Marker := { coords := workout.get "coords", type := workout.get "type" }
        (.returned, { s with map := some (markers ++ [m]), log := s.log ++ [.marker m] })

/-- The method `renderWorkout(workout)`. Reading `workout.type` throws on
`undefined` and `null`; `toFixed` throws when the metric of the kind is not a
number. The item is inserted right after the form. -/
def renderWorkout (s : App) (workout : JSVal) : Outcome × App :=
  if workout.isNullish then (.thrown "TypeError", s)
  else if (workout.get "type").isStr "running" && !(workout.get "pace").isNum then
    (.thrown "TypeError", s)
  else if (workout.get "type").isStr "cycling" && !(workout.get "speed").isNum then
    (.thrown "TypeError", s)
  else
    (.returned, { s with entries := workout :: s.entries, log := s.log ++ [.entry workout] })

/-- The loop `this.#workouts.forEach(work => f(work))`: it stops at the first
call that throws. -/
def forEach (f : App → JSVal → Outcome × App) : List JSVal → App → Outcome × App
  | [], s => (.returned, s)
  | work :: rest, s => Outcome.andThen (f s work) (forEach f rest)

/-- The method `_loadMap(position)`: the map is created without markers, the
click listener is registered (see `mapClick`), then a marker is rendered for
every record in memory. -/
def _loadMap (s : App) : Outcome × App :=
  forEach renderWorkoutMarker s.workouts { s with map := some [] }

/-- A click on the map: `_showForm` is registered on the map by `_loadMap`, so
nothing runs before the map exists. -/
def mapClick (s : App) (mapE : LatLng) : App :=
  match s.map with
  | none => s
  | some _ => _showForm s mapE

/-- The method `_setLocalStorage()`. -/
def _setLocalStorage (s : App) : Outcome × App :=
  let doc := stringify (.arr s.workouts)
  (.returned, { s with localStorage := doc, log := s.log ++ [.setItem doc] })

/-- The method `_getLocalStorage()`. `getItem` gives `null` for an absent slot
and `JSON.parse(null)` is `null`. A truthy value that is not an array has no
`forEach`. The call `console.log(data)` touches no part of the state. -/
def _getLocalStorage (s : App) : Outcome × App :=
  let data : JSVal :=
    match s.localStorage with
    | none => .null
    | some doc => parse doc
  if !data.truthy then (.returned, s)
  else
    match data with
    | .arr ws => forEach renderWorkout ws { s with workouts := ws }
    | _ => (.thrown "TypeError", s)

/-- The method `_clearLocalStorage()`. -/
def _clearLocalStorage (s : App) : App :=
  { s with localStorage := none,
           log := s.log ++ [.removeItem, .alert "All workouts have been deleted!", .reload] }

/-- The arrow function `validInputs`. -/
def validInputs (inputs : List JSNum) : Bool :=
  inputs.all JSNum.isFinite

/-- The arrow function `allPositive`. -/
def allPositive (inputs : List JSNum) : Bool :=
  inputs.all JSNum.gtZero

/-- The text of the alert of a rejected submission. -/
def rejection : String := "Inputs have to be positive numbers!"

/-- The statements of `_newWorkout` from `this.#workouts.push(workout)` on. -/
def finishWorkout (s : App) (workout : JSVal) : Outcome × App :=
  let s1 := { s with workouts := s.workouts ++ [workout], log := s.log ++ [.push workout] }
  Outcome.andThen (renderWorkoutMarker s1 workout) fun s2 =>
  Outcome.andThen (renderWorkout s2 workout) fun s3 =>
  _setLocalStorage
    { s3 with inputDistance := "", inputDuration := "", inputCadence := "",
              inputElevation := "", log := s3.log ++ [.clearInputs] }

/-- The method `_newWorkout(e)`. The call `e.preventDefault()` acts on the event
only. Reading `this.#mapEvent.latlng` throws while `#mapEvent` is `undefined`.
When the kind is neither literal, `workout` is still `undefined` at the push. -/
def _newWorkout (E : Env) (s : App) : Outcome × App :=
  let type := s.inputType
  let distance := E.toNumber s.inputDistance
  let duration := E.toNumber s.inputDuration
  match s.mapEvent with
  | none => (.thrown "TypeError", s)
  | some mapE =>
      let coords := JSVal.arr [.num mapE.lat, .num mapE.lng]
      let cadence := E.toNumber s.inputCadence
      if type = "running" ∧
          (!validInputs [distance, duration, cadence]
            || !allPositive [distance, duration, cadence]) = true then
        (.returned, alert s rejection)
      else
        let workout :=
          if type = "running" then Running E coords distance duration cadence
          else JSVal.undefined
        let elevation := E.toNumber s.inputElevation
        if type = "cycling" ∧
            (!validInputs [distance, duration, elevation]
              || !allPositive [distance, duration]) = true then
          (.returned, alert s rejection)
        else
          let workout :=
            if type = "cycling" then Cycling E coords distance duration elevation
            else workout
          finishWorkout s workout

/-- The state in which the constructor of `App` starts after the private
fields are initialised: no map, no map event, no record in memory. The page and
the storage slot are as the browser provides them. -/
def App.fresh (page : App) : App :=
  { page with map := none, mapEvent := none, workouts := [] }

/-- The constructor of `App`: `_getPosition` only registers callbacks, then
`_getLocalStorage` runs. -/
def App.create (page : App) : Outcome × App :=
  _getLocalStorage (App.fresh page)

/-- Whether `renderWorkout` gets through a record: it can be read from, and the
metric of its kind is a number. -/
def renderable (w : JSVal) : Bool :=
  !w.isNullish
    && !((w.get "type").isStr "running" && !(w.get "pace").isNum)
    && !((w.get "type").isStr "cycling" && !(w.get "speed").isNum)

/-! ## Events -/

/-- An event delivered to a listener the controller registered: the position
callback (`_loadMap`), a click on the map (`_showForm`), the user editing the
form, a click on the submit button (`_newWorkout`) and a click on the clear
button (`_clearLocalStorage`). -/
inductive Event where
  | position
  | mapClick (mapE : LatLng)
  | edit (type distance duration cadence elevation : String)
  | submit (E : Env)
  | clear

/-- The state after the listener of an event ran. The reload that follows
`_clearLocalStorage` starts a new controller, that is, a new `run`. -/
def dispatch (s : App) : Event → App
  | .position => (_loadMap s).2
  | .mapClick mapE => mapClick s mapE
  | .edit type distance duration cadence elevation =>
      { s with inputType := type, inputDistance := distance, inputDuration := duration,
               inputCadence := cadence, inputElevation := elevation }
  | .submit E => (_newWorkout E s).2
  | .clear => _clearLocalStorage s

/-- The state after the constructor ran on a page and the events were handled
in order. -/
def run (page : App) (events : List Event) : App :=
  events.foldl dispatch (App.create page).2

/-- Pending coordinates exist only on a loaded map. -/
def Bound (s : App) : Prop :=
  s.mapEvent.isSome = true → s.map.isSome = true

/-! ## Records the controller creates, for statements about lists of them -/

/-- One constructor call on finite numbers: the platform at the call, the
kind, the coordinates and the three numbers of the form. The field `extra` is
the cadence of a running record and the elevation gain of a cycling record. -/
structure Creation where
  env : Env
  running : Bool
  lat : ℚ
  lng : ℚ
  distance : ℚ
  duration : ℚ
  extra : ℚ

/-- The record the constructor call builds. -/
def Creation.record (c : Creation) : JSVal :=
  if c.running then
    Running c.env (.arr [.num (.fin c.lat), .num (.fin c.lng)]) (.fin c.distance)
      (.fin c.duration) (.fin c.extra)
  else
    Cycling c.env (.arr [.num (.fin c.lat), .num (.fin c.lng)]) (.fin c.distance)
      (.fin c.duration) (.fin c.extra)

/-- The metric the constructor call computes: the pace of a running record,
the speed of a cycling record. -/
def Creation.metric (c : Creation) : JSNum :=
  if c.running then calcPace (.fin c.duration) (.fin c.distance)
  else calcSpeed (.fin c.distance) (.fin c.duration)

/-! ## Sample platform and states used by the closed instances -/

/-- Value of a list of decimal digits, `none` when the list is empty or holds
another character. -/
def readDigits : List Char → Option Nat
  | [] => none
  | cs => cs.foldl
      (fun acc c => acc.bind fun n => if c.isDigit then some (10 * n + (c.toNat - 48)) else none)
      (some 0)

/-- A conversion for the sample platform: the empty text is `0`, a decimal
integer numeral with an optional leading `-` is that integer, anything else is
`NaN`. On the texts used below it agrees with the unary `+`. -/
def sampleToNumber (s : String) : JSNum :=
  match s.data with
  | [] => .fin 0
  | '-' :: cs =>
      match readDigits cs with
      | some n => .fin (-(n : ℚ))
      | none => .nan
  | cs =>
      match readDigits cs with
      | some n => .fin (n : ℚ)
      | none => .nan

/-- A sample platform: the clock reads 4 November 2026, 09:30 UTC. -/
def sampleEnv : Env :=
  { toNumber := sampleToNumber
    newDate := { getMonth := 10, getDate := 4, toISOString := "2026-11-04T09:30:00.000Z" }
    dateNow := 1793784600000 }

/-- The page right after the constructor ran on an empty storage: form hidden,
inputs empty, kind selector on `running`. -/
def samplePage : App :=
  { map := none, mapEvent := none, workouts := [], formHidden := true,
    inputType := "running", inputDistance := "", inputDuration := "",
    inputCadence := "", inputElevation := "", entries := [],
    localStorage := none, log := [] }

/-- The sample page after the map loaded and was clicked at (51, 7). -/
def sampleOpen : App :=
  run samplePage [.position, .mapClick { lat := .fin 51, lng := .fin 7 }]

/-- The open sample form filled with a running submission. -/
def sampleRun (distance duration cadence : String) : App :=
  { sampleOpen with inputType := "running", inputDistance := distance,
                    inputDuration := duration, inputCadence := cadence }

/-- The open sample form filled with a cycling submission. -/
def sampleRide (distance duration elevation : String) : App :=
  { sampleOpen with inputType := "cycling", inputDistance := distance,
                    inputDuration := duration, inputElevation := elevation }

/-- The state after the accepted sample submission (5 km, 25 min, 150 spm). -/
def sampleSaved : App :=
  (_newWorkout sampleEnv (sampleRun "5" "25" "150")).2

/-- The sample running record as a constructor call. -/
def sampleCreation : Creation :=
  { env := sampleEnv, running := true, lat := 51, lng := 7, distance := 5, duration := 25,
    extra := 150 }

/-- The double `2 ^ 1000`. -/
def sampleLarge : ℚ := ((2 ^ 1000 : Nat) : ℚ)

/-- The double `2 ^ -1000`. -/
def sampleSmall : ℚ := 1 / ((2 ^ 1000 : Nat) : ℚ)

/-- The smallest double above zero, `2 ^ -1074`. -/
def sampleTiny : ℚ := 1 / ((2 ^ 1074 : Nat) : ℚ)

/-- A running record whose pace leaves the double range: distance `2 ^ -1000`
and duration `2 ^ 1000`, both doubles above zero. -/
def sampleSteep : JSVal :=
  Running sampleEnv (.arr [.num (.fin 51), .num (.fin 7)])
    (.fin sampleSmall) (.fin sampleLarge) (.fin 150)

/-- A state whose list in memory holds the record `sampleSteep` only. -/
def sampleSteepState : App :=
  { sampleOpen with workouts := [sampleSteep] }

/-! # Theorems -/

/-! ## Rounding to a double -/

/-- Evaluations of `JSNum.ofRat` at the corners of the format: a quotient that
is a double is kept; one tenth and one third are rounded; a tie goes to the
even neighbour (`2 ^ 53 + 1` down, `2 ^ 53 + 3` up); the largest double is
kept and the tie above it is `Infinity`; the smallest double above zero is
kept, half of it is `0` and three halves of it are twice it. -/
theorem ofRat_evaluations :
    JSNum.ofRat (25 / 5) = .fin 5 ∧
    JSNum.ofRat (1 / 10) = .fin (3602879701896397 / 36028797018963968) ∧
    JSNum.ofRat (1 / 3) = .fin (6004799503160661 / 18014398509481984) ∧
    JSNum.ofRat (-(1 / 3)) = .fin (-(6004799503160661 / 18014398509481984)) ∧
    JSNum.ofRat (((2 ^ 53 + 1 : Nat) : ℚ)) = .fin (((2 ^ 53 : Nat) : ℚ)) ∧
    JSNum.ofRat (((2 ^ 53 + 3 : Nat) : ℚ)) = .fin (((2 ^ 53 + 4 : Nat) : ℚ)) ∧
    JSNum.ofRat ((((2 ^ 53 - 1) * 2 ^ 971 : Nat) : ℚ))
      = .fin ((((2 ^ 53 - 1) * 2 ^ 971 : Nat) : ℚ)) ∧
    JSNum.ofRat ((((2 ^ 53 - 1) * 2 ^ 971 + 2 ^ 970 : Nat) : ℚ)) = .posInf ∧
    JSNum.ofRat sampleTiny = .fin sampleTiny ∧
    JSNum.ofRat (sampleTiny / 2) = .fin 0 ∧
    JSNum.ofRat (3 * sampleTiny / 2) = .fin (2 * sampleTiny) := by
  refine ⟨?_, ?_, ?_, ?_, ?_, ?_, ?_, ?_, ?_, ?_, ?_⟩ <;> decide!

/-! ## Records -/

/-- C1 as stated fails in the arithmetic of the code: with distance 3,
duration 1 and cadence 150 the pace is the double nearest to one third, which
is not `1 / 3`; with distance `2 ^ -1000` and duration `2 ^ 1000` the quotient
leaves the double range and the pace is `Infinity`. -/
theorem running_pace_is_rounded :
    (Running sampleEnv (.arr [.num (.fin 51), .num (.fin 7)]) (.fin 3) (.fin 1) (.fin 150)).get
        "pace" = .num (.fin (6004799503160661 / 18014398509481984)) ∧
    JSVal.num (.fin (6004799503160661 / 18014398509481984)) ≠ .num (.fin (1 / 3)) ∧
    sampleSteep.get "pace" = .num .posInf := by
  have h3 : calcPace (.fin 1) (.fin 3) = .fin (6004799503160661 / 18014398509481984) := by
    decide!
  have hs : calcPace (.fin sampleLarge) (.fin sampleSmall) = .posInf := by
    decide!
  refine ⟨?_, ?_, ?_⟩
  · simp only [Running, Workout, JSVal.get, List.cons_append, List.nil_append, JSVal.lookup, h3]
    simp
  · intro h
    have h2 : (6004799503160661 / 18014398509481984 : ℚ) = 1 / 3 := by
      injection h with h1
      injection h1
    norm_num at h2
  · simp only [sampleSteep, Running, Workout, JSVal.get, List.cons_append, List.nil_append,
      JSVal.lookup, hs]
    simp

/-- C1, amended. For finite `distance > 0`, `duration > 0` and `cadence > 0`,
the record `new Running(coords, distance, duration, cadence)` has as `pace` the
double quotient `duration / distance`: the exact quotient rounded to the nearest
double, ties to even, `Infinity` when that leaves the double range. When the
exact quotient is itself a double the pace is that quotient. `distance`,
`duration` and `cadence` are stored as given. -/
theorem running_pace_eq (E : Env) (coords : JSVal) (distance duration cadence : ℚ)
    (hd : 0 < distance) (_ht : 0 < duration) (_hc : 0 < cadence) :
    (Running E coords (.fin distance) (.fin duration) (.fin cadence)).get "pace"
        = .num (JSNum.ofRat (duration / distance)) ∧
    (JSNum.ofRat (duration / distance) = .fin (duration / distance) →
      (Running E coords (.fin distance) (.fin duration) (.fin cadence)).get "pace"
        = .num (.fin (duration / distance))) ∧
    (Running E coords (.fin distance) (.fin duration) (.fin cadence)).get "distance"
        = .num (.fin distance) ∧
    (Running E coords (.fin distance) (.fin duration) (.fin cadence)).get "duration"
        = .num (.fin duration) ∧
    (Running E coords (.fin distance) (.fin duration) (.fin cadence)).get "cadence"
        = .num (.fin cadence) := by
  have hne : distance ≠ 0 := ne_of_gt hd
  have hp : (Running E coords (.fin distance) (.fin duration) (.fin cadence)).get "pace"
      = .num (JSNum.ofRat (duration / distance)) := by
    simp [Running, Workout, JSVal.get, JSVal.lookup, calcPace, JSNum.div, hne]
  refine ⟨hp, ?_, ?_, ?_, ?_⟩
  · intro h
    rw [hp, h]
  · simp [Running, Workout, JSVal.get, JSVal.lookup]
  · simp [Running, Workout, JSVal.get, JSVal.lookup]
  · simp [Running, Workout, JSVal.get, JSVal.lookup]

/-- Instance of C1 (amended): distance 5, duration 25 and cadence 150 give
pace 5. -/
theorem running_pace_eq_witness :
    (Running sampleEnv (.arr [.num (.fin 51), .num (.fin 7)]) (.fin 5) (.fin 25) (.fin 150)).get
        "pace" = .num (.fin 5) := by
  have h := (running_pace_eq sampleEnv (.arr [.num (.fin 51), .num (.fin 7)]) 5 25 150
    (by norm_num) (by norm_num) (by norm_num)).1
  have hr : JSNum.ofRat (25 / 5) = .fin 5 := by decide!
  rw [h, hr]

/-- C2 as stated fails in the arithmetic of the code: with distance 1 and
duration 11 both divisions round, the speed is the double `5.454545454545455`,
which is neither `60 / 11` nor the double `5.454545454545454` that
`60 * distance / duration` gives; with duration `2 ^ -1074` the inner quotient
is `0` and the speed is `Infinity`. -/
theorem cycling_speed_is_rounded :
    (Cycling sampleEnv (.arr [.num (.fin 51), .num (.fin 7)]) (.fin 1) (.fin 11) (.fin 150)).get
        "speed" = .num (.fin (3070636109570793 / 562949953421312)) ∧
    JSVal.num (.fin (3070636109570793 / 562949953421312)) ≠ .num (.fin (60 * 1 / 11)) ∧
    JSNum.div (JSNum.ofRat (60 * 1)) (.fin 11) = .fin (6141272219141585 / 1125899906842624) ∧
    JSVal.num (.fin (3070636109570793 / 562949953421312))
      ≠ .num (.fin (6141272219141585 / 1125899906842624)) ∧
    (Cycling sampleEnv (.arr [.num (.fin 51), .num (.fin 7)]) (.fin 1)
        (.fin sampleTiny) (.fin 150)).get "speed" = .num .posInf := by
  have h1 : calcSpeed (.fin 1) (.fin 11) = .fin (3070636109570793 / 562949953421312) := by
    decide!
  have h2 : calcSpeed (.fin 1) (.fin sampleTiny) = .posInf := by
    decide!
  refine ⟨?_, ?_, by decide!, ?_, ?_⟩
  · simp only [Cycling, Workout, JSVal.get, List.cons_append, List.nil_append, JSVal.lookup, h1]
    simp
  · intro h
    have h3 : (3070636109570793 / 562949953421312 : ℚ) = 60 * 1 / 11 := by
      injection h with h4
      injection h4
    norm_num at h3
  · intro h
    have h3 : (3070636109570793 / 562949953421312 : ℚ)
        = 6141272219141585 / 1125899906842624 := by
      injection h with h4
      injection h4
    norm_num at h3
  · simp only [Cycling, Workout, JSVal.get, List.cons_append, List.nil_append, JSVal.lookup, h2]
    simp

/-- C2, amended. For finite `distance > 0`, `duration > 0` and any finite
`elevation`, the record `new Cycling(coords, distance, duration, elevation)`
has as `speed` the double `distance / (duration / 60)` in which each of the two
divisions is rounded to the nearest double (ties to even): when the inner
quotient rounds to a double `u` other than zero the speed is the rounded
`distance / u`, and when it rounds to zero the speed is `Infinity`. `distance`,
`duration` and `elevationGain` are stored as given. -/
theorem cycling_speed_eq (E : Env) (coords : JSVal) (distance duration elevation : ℚ)
    (hd : 0 < distance) (_ht : 0 < duration) :
    (Cycling E coords (.fin distance) (.fin duration) (.fin elevation)).get "speed"
        = .num (JSNum.div (.fin distance) (JSNum.ofRat (duration / 60))) ∧
    (∀ u : ℚ, JSNum.ofRat (duration / 60) = .fin u → u ≠ 0 →
      (Cycling E coords (.fin distance) (.fin duration) (.fin elevation)).get "speed"
        = .num (JSNum.ofRat (distance / u))) ∧
    (JSNum.ofRat (duration / 60) = .fin 0 →
      (Cycling E coords (.fin distance) (.fin duration) (.fin elevation)).get "speed"
        = .num .posInf) ∧
    (Cycling E coords (.fin distance) (.fin duration) (.fin elevation)).get "distance"
        = .num (.fin distance) ∧
    (Cycling E coords (.fin distance) (.fin duration) (.fin elevation)).get "duration"
        = .num (.fin duration) ∧
    (Cycling E coords (.fin distance) (.fin duration) (.fin elevation)).get "elevationGain"
        = .num (.fin elevation) := by
  have hne : distance ≠ 0 := ne_of_gt hd
  have hs : (Cycling E coords (.fin distance) (.fin duration) (.fin elevation)).get "speed"
      = .num (JSNum.div (.fin distance) (JSNum.ofRat (duration / 60))) := by
    simp [Cycling, Workout, JSVal.get, JSVal.lookup, calcSpeed, JSNum.div]
  refine ⟨hs, ?_, ?_, ?_, ?_, ?_⟩
  · intro u hu hu0
    rw [hs, hu]
    simp [JSNum.div, hu0]
  · intro hu
    rw [hs, hu]
    simp [JSNum.div, hne, hd]
  · simp [Cycling, Workout, JSVal.get, JSVal.lookup]
  · simp [Cycling, Workout, JSVal.get, JSVal.lookup]
  · simp [Cycling, Workout, JSVal.get, JSVal.lookup]

/-- Instance of C2 (amended): distance 20, duration 60 and elevation 150 give
speed 20. -/
theorem cycling_speed_eq_witness :
    (Cycling sampleEnv (.arr [.num (.fin 51), .num (.fin 7)]) (.fin 20) (.fin 60) (.fin 150)).get
        "speed" = .num (.fin 20) := by
  have h := (cycling_speed_eq sampleEnv (.arr [.num (.fin 51), .num (.fin 7)]) 20 60 150
    (by norm_num) (by norm_num)).1
  have hr : JSNum.div (.fin 20) (JSNum.ofRat (60 / 60)) = .fin 20 := by decide!
  rw [h, hr]

/-- C7, evaluated on a record created on 4 November: the description of a
running record is `Running on November`, a line break, eight blanks and `4`;
it is not the one-line text `Running on November 4`. The same holds for a
cycling record. -/
theorem description_has_line_break :
    (Running sampleEnv .null (.fin 5) (.fin 25) (.fin 150)).get "description"
        = .str "Running on November\n        4" ∧
    (Cycling sampleEnv .null (.fin 20) (.fin 60) (.fin 150)).get "description"
        = .str "Cycling on November\n        4" ∧
    _setDescription "running" sampleEnv.newDate ≠ "Running on November 4" ∧
    _setDescription "cycling" sampleEnv.newDate ≠ "Cycling on November 4" := by
  refine ⟨?_, ?_, by decide, by decide⟩
  · have h : _setDescription "running" sampleEnv.newDate = "Running on November\n        4" := by
      decide
    simp [Running, Workout, JSVal.get, JSVal.lookup, h]
  · have h : _setDescription "cycling" sampleEnv.newDate = "Cycling on November\n        4" := by
      decide
    simp [Cycling, Workout, JSVal.get, JSVal.lookup, h]

/-! ## The form -/

/-- C9, evaluated on the sample page: a map click opens the form and binds the
coordinates, and after an accepted running submission (5 km, 25 min, 150 spm)
the record is in the list but the form is still not hidden. -/
theorem form_stays_open_after_accepted :
    samplePage.formHidden = true ∧
    sampleOpen.formHidden = false ∧
    sampleOpen.mapEvent = some { lat := .fin 51, lng := .fin 7 } ∧
    (_newWorkout sampleEnv (sampleRun "5" "25" "150")).1 = .returned ∧
    (_newWorkout sampleEnv (sampleRun "5" "25" "150")).2.workouts.length = 1 ∧
    (_newWorkout sampleEnv (sampleRun "5" "25" "150")).2.formHidden = false := by
  decide

/-! ## Reachable states -/

theorem andThen_bound (r : Outcome × App) (f : App → Outcome × App)
    (hr : Bound r.2) (hf : ∀ t, Bound t → Bound (f t).2) :
    Bound (Outcome.andThen r f).2 := by
  obtain ⟨o, t⟩ := r
  cases o with
  | returned => exact hf t hr
  | thrown e => exact hr

theorem renderWorkoutMarker_bound (s : App) (w : JSVal) (h : Bound s) :
    Bound (renderWorkoutMarker s w).2 := by
  unfold renderWorkoutMarker
  split
  · exact h
  · split
    · exact h
    · intro _; rfl

theorem renderWorkout_bound (s : App) (w : JSVal) (h : Bound s) :
    Bound (renderWorkout s w).2 := by
  unfold renderWorkout
  split
  · exact h
  · split
    · exact h
    · split
      · exact h
      · exact h

theorem forEach_bound (f : App → JSVal → Outcome × App)
    (hf : ∀ s w, Bound s → Bound (f s w).2) (ws : List JSVal) (s : App) (h : Bound s) :
    Bound (forEach f ws s).2 := by
  induction ws generalizing s with
  | nil => exact h
  | cons w rest ih =>
      simp only [forEach]
      exact andThen_bound _ _ (hf s w h) (fun t ht => ih t ht)

theorem finishWorkout_bound (s : App) (w : JSVal) (h : Bound s) :
    Bound (finishWorkout s w).2 := by
  unfold finishWorkout
  apply andThen_bound
  · exact renderWorkoutMarker_bound _ w h
  · intro t ht
    apply andThen_bound
    · exact renderWorkout_bound _ w ht
    · intro u hu
      exact hu

theorem newWorkout_bound (E : Env) (s : App) (h : Bound s) : Bound (_newWorkout E s).2 := by
  unfold _newWorkout
  simp only []
  split
  · exact h
  · split
    · exact h
    · split
      · exact h
      · exact finishWorkout_bound _ _ h

theorem getLocalStorage_bound (s : App) (h : Bound s) : Bound (_getLocalStorage s).2 := by
  unfold _getLocalStorage
  simp only []
  split
  · exact h
  · split
    · exact forEach_bound _ renderWorkout_bound _ _ h
    · exact h

/-- In every state the controller reaches from its constructor, pending
coordinates are bound only when the map is loaded. -/
theorem run_bound (page : App) (events : List Event) : Bound (run page events) := by
  have hstart : Bound (App.create page).2 := by
    apply getLocalStorage_bound
    intro h
    simp [App.fresh] at h
  unfold run
  generalize (App.create page).2 = s at hstart
  induction events generalizing s with
  | nil => exact hstart
  | cons e rest ih =>
      apply ih
      cases e with
      | position =>
          exact forEach_bound _ renderWorkoutMarker_bound _ _ (fun _ => rfl)
      | mapClick mapE =>
          simp only [dispatch, mapClick]
          split
          · exact hstart
          · rename_i ms hms
            intro _
            simp [_showForm, hms]
      | edit type distance duration cadence elevation => exact hstart
      | submit E => exact newWorkout_bound E s hstart
      | clear => exact hstart

/-! ## Submission: auxiliary facts -/

theorem renderWorkoutMarker_workouts (s : App) (w : JSVal) :
    (renderWorkoutMarker s w).2.workouts = s.workouts := by
  unfold renderWorkoutMarker
  split
  · rfl
  · split <;> rfl

theorem renderWorkout_workouts (s : App) (w : JSVal) :
    (renderWorkout s w).2.workouts = s.workouts := by
  unfold renderWorkout
  split
  · rfl
  · split
    · rfl
    · split <;> rfl

theorem andThen_workouts (r : Outcome × App) (f : App → Outcome × App)
    (hf : ∀ t, (f t).2.workouts = t.workouts) :
    (Outcome.andThen r f).2.workouts = r.2.workouts := by
  obtain ⟨o, t⟩ := r
  cases o with
  | returned => exact hf t
  | thrown e => rfl

/-- Whatever happens after the push, the record stays appended. -/
theorem finishWorkout_workouts (s : App) (w : JSVal) :
    (finishWorkout s w).2.workouts = s.workouts ++ [w] := by
  unfold finishWorkout
  simp only []
  rw [andThen_workouts, renderWorkoutMarker_workouts]
  intro t
  rw [andThen_workouts, renderWorkout_workouts]
  intro u
  rfl

/-- A running submission that fails a check ends in the alert. -/
theorem newWorkout_running_rejected (E : Env) (s : App) (mapE : LatLng)
    (hev : s.mapEvent = some mapE) (hkind : s.inputType = "running")
    (hbad : (validInputs [E.toNumber s.inputDistance, E.toNumber s.inputDuration,
                E.toNumber s.inputCadence]
              && allPositive [E.toNumber s.inputDistance, E.toNumber s.inputDuration,
                E.toNumber s.inputCadence]) = false) :
    _newWorkout E s = (.returned, alert s rejection) := by
  have h : (!validInputs [E.toNumber s.inputDistance, E.toNumber s.inputDuration,
                E.toNumber s.inputCadence]
              || !allPositive [E.toNumber s.inputDistance, E.toNumber s.inputDuration,
                E.toNumber s.inputCadence]) = true := by
    revert hbad
    cases validInputs _ <;> cases allPositive _ <;> simp
  simp only [_newWorkout, hev, hkind, h, and_self, if_true]

/-- A running submission that passes both checks reaches the push. -/
theorem newWorkout_running_passed (E : Env) (s : App) (mapE : LatLng)
    (hev : s.mapEvent = some mapE) (hkind : s.inputType = "running")
    (hgood : (validInputs [E.toNumber s.inputDistance, E.toNumber s.inputDuration,
                E.toNumber s.inputCadence]
              && allPositive [E.toNumber s.inputDistance, E.toNumber s.inputDuration,
                E.toNumber s.inputCadence]) = true) :
    _newWorkout E s = finishWorkout s
      (Running E (.arr [.num mapE.lat, .num mapE.lng]) (E.toNumber s.inputDistance)
        (E.toNumber s.inputDuration) (E.toNumber s.inputCadence)) := by
  have h : (!validInputs [E.toNumber s.inputDistance, E.toNumber s.inputDuration,
                E.toNumber s.inputCadence]
              || !allPositive [E.toNumber s.inputDistance, E.toNumber s.inputDuration,
                E.toNumber s.inputCadence]) = false := by
    revert hgood
    cases validInputs _ <;> cases allPositive _ <;> simp
  have hne : ¬ ("running" = "cycling") := by decide
  simp [_newWorkout, hev, hkind, h, hne]

/-- A cycling submission that fails a check ends in the alert. -/
theorem newWorkout_cycling_rejected (E : Env) (s : App) (mapE : LatLng)
    (hev : s.mapEvent = some mapE) (hkind : s.inputType = "cycling")
    (hbad : (validInputs [E.toNumber s.inputDistance, E.toNumber s.inputDuration,
                E.toNumber s.inputElevation]
              && allPositive [E.toNumber s.inputDistance, E.toNumber s.inputDuration])
              = false) :
    _newWorkout E s = (.returned, alert s rejection) := by
  have h : (!validInputs [E.toNumber s.inputDistance, E.toNumber s.inputDuration,
                E.toNumber s.inputElevation]
              || !allPositive [E.toNumber s.inputDistance, E.toNumber s.inputDuration])
              = true := by
    revert hbad
    cases validInputs _ <;> cases allPositive _ <;> simp
  have hne : ¬ ("cycling" = "running") := by decide
  simp [_newWorkout, hev, hkind, h, hne]

/-- A cycling submission that passes both checks reaches the push. -/
theorem newWorkout_cycling_passed (E : Env) (s : App) (mapE : LatLng)
    (hev : s.mapEvent = some mapE) (hkind : s.inputType = "cycling")
    (hgood : (validInputs [E.toNumber s.inputDistance, E.toNumber s.inputDuration,
                E.toNumber s.inputElevation]
              && allPositive [E.toNumber s.inputDistance, E.toNumber s.inputDuration])
              = true) :
    _newWorkout E s = finishWorkout s
      (Cycling E (.arr [.num mapE.lat, .num mapE.lng]) (E.toNumber s.inputDistance)
        (E.toNumber s.inputDuration) (E.toNumber s.inputElevation)) := by
  have h : (!validInputs [E.toNumber s.inputDistance, E.toNumber s.inputDuration,
                E.toNumber s.inputElevation]
              || !allPositive [E.toNumber s.inputDistance, E.toNumber s.inputDuration])
              = false := by
    revert hgood
    cases validInputs _ <;> cases allPositive _ <;> simp
  have hne : ¬ ("cycling" = "running") := by decide
  simp [_newWorkout, hev, hkind, h, hne]

/-- A list never equals itself extended by one element. -/
theorem ne_append_singleton {α : Type} (L : List α) (w : α) : L ≠ L ++ [w] := by
  intro h
  have := congrArg List.length h
  simp at this

/-! ## Submission: rejection -/

/-- C3 as stated fails before any map click: in the state the constructor
leaves, `#mapEvent` is still `undefined`, the read of `latlng` throws, and a
running submission with an empty distance ends in a `TypeError` without any
alert. -/
theorem newWorkout_invalid_before_map_click :
    run samplePage [] = samplePage ∧
    samplePage.mapEvent = none ∧
    samplePage.inputType = "running" ∧
    sampleEnv.toNumber samplePage.inputDistance = .fin 0 ∧
    (sampleEnv.toNumber samplePage.inputDistance).gtZero = false ∧
    (_newWorkout sampleEnv samplePage).1 = .thrown "TypeError" ∧
    (_newWorkout sampleEnv samplePage).2.log = [] := by
  refine ⟨rfl, rfl, rfl, by decide, by decide, by decide, rfl⟩

/-- C3, amended. In every controller state, a running or cycling submission
whose distance or duration is not finite or not above zero leaves the list in
memory, the storage slot, the markers, the rendered entries, the four inputs
(and the rest of the page) as they were; and whenever a map click has bound the
pending coordinates, `_newWorkout` returns after the alert, which is the only
effect added to the log. -/
theorem newWorkout_rejects_invalid (E : Env) (s : App)
    (hkind : s.inputType = "running" ∨ s.inputType = "cycling")
    (hbad : (E.toNumber s.inputDistance).isFinite = false ∨
            (E.toNumber s.inputDistance).gtZero = false ∨
            (E.toNumber s.inputDuration).isFinite = false ∨
            (E.toNumber s.inputDuration).gtZero = false) :
    ((_newWorkout E s).2.workouts = s.workouts ∧
     (_newWorkout E s).2.localStorage = s.localStorage ∧
     (_newWorkout E s).2.map = s.map ∧
     (_newWorkout E s).2.entries = s.entries ∧
     (_newWorkout E s).2.inputDistance = s.inputDistance ∧
     (_newWorkout E s).2.inputDuration = s.inputDuration ∧
     (_newWorkout E s).2.inputCadence = s.inputCadence ∧
     (_newWorkout E s).2.inputElevation = s.inputElevation ∧
     (_newWorkout E s).2.inputType = s.inputType ∧
     (_newWorkout E s).2.formHidden = s.formHidden ∧
     (_newWorkout E s).2.mapEvent = s.mapEvent) ∧
    (∀ mapE : LatLng, s.mapEvent = some mapE →
      (_newWorkout E s).1 = .returned ∧
      (_newWorkout E s).2.log = s.log ++ [.alert rejection]) := by
  have key : ∀ mapE : LatLng, s.mapEvent = some mapE →
      _newWorkout E s = (.returned, alert s rejection) := by
    intro mapE hev
    rcases hkind with hk | hk
    · apply newWorkout_running_rejected E s mapE hev hk
      rcases hbad with h | h | h | h <;> simp [validInputs, allPositive, h]
    · apply newWorkout_cycling_rejected E s mapE hev hk
      rcases hbad with h | h | h | h <;> simp [validInputs, allPositive, h]
  refine ⟨?_, ?_⟩
  · cases hev : s.mapEvent with
    | none =>
        have hthrow : _newWorkout E s = (.thrown "TypeError", s) := by
          simp [_newWorkout, hev]
        rw [hthrow]
        simp [hev]
    | some mapE =>
        rw [key mapE hev]
        simp [alert, hev]
  · intro mapE hev
    rw [key mapE hev]
    simp [alert]

/-- Instance of C3 (amended): the open sample form with a non-numeric distance. -/
theorem newWorkout_rejects_invalid_witness :
    (_newWorkout sampleEnv (sampleRun "abc" "25" "150")).1 = .returned ∧
    (_newWorkout sampleEnv (sampleRun "abc" "25" "150")).2.log
      = (sampleRun "abc" "25" "150").log ++ [.alert rejection] ∧
    (_newWorkout sampleEnv (sampleRun "abc" "25" "150")).2.workouts
      = (sampleRun "abc" "25" "150").workouts ∧
    (_newWorkout sampleEnv (sampleRun "abc" "25" "150")).2.localStorage
      = (sampleRun "abc" "25" "150").localStorage := by
  have h := newWorkout_rejects_invalid sampleEnv (sampleRun "abc" "25" "150")
    (Or.inl rfl) (Or.inl (by decide))
  have h2 := h.2 { lat := .fin 51, lng := .fin 7 } rfl
  exact ⟨h2.1, h2.2, h.1.1, h.1.2.1⟩

/-! ## Submission: acceptance -/

/-- C4 as stated fails: a running submission with valid distance and duration
and cadence `0`, or a negative cadence, is rejected with the alert and nothing
is appended. -/
theorem running_zero_cadence_rejected :
    sampleEnv.toNumber "0" = .fin 0 ∧
    sampleEnv.toNumber "-3" = .fin (-3) ∧
    (_newWorkout sampleEnv (sampleRun "5" "25" "0")).1 = .returned ∧
    (_newWorkout sampleEnv (sampleRun "5" "25" "0")).2.workouts = [] ∧
    (_newWorkout sampleEnv (sampleRun "5" "25" "0")).2.log
      = (sampleRun "5" "25" "0").log ++ [.alert rejection] ∧
    (_newWorkout sampleEnv (sampleRun "5" "25" "-3")).2.workouts = [] ∧
    (_newWorkout sampleEnv (sampleRun "5" "25" "-3")).2.log
      = (sampleRun "5" "25" "-3").log ++ [.alert rejection] := by
  have h0 : _newWorkout sampleEnv (sampleRun "5" "25" "0")
      = (.returned, alert (sampleRun "5" "25" "0") rejection) :=
    newWorkout_running_rejected sampleEnv _ { lat := .fin 51, lng := .fin 7 } rfl rfl (by decide)
  have h3 : _newWorkout sampleEnv (sampleRun "5" "25" "-3")
      = (.returned, alert (sampleRun "5" "25" "-3") rejection) :=
    newWorkout_running_rejected sampleEnv _ { lat := .fin 51, lng := .fin 7 } rfl rfl (by decide)
  refine ⟨by decide, by decide, ?_, ?_, ?_, ?_, ?_⟩
  · rw [h0]
  · rw [h0]; rfl
  · rw [h0]; rfl
  · rw [h3]; rfl
  · rw [h3]; rfl

/-- C4, amended. With the pending coordinates bound, a running submission is
accepted (the record `new Running([lat, lng], distance, duration, cadence)` is
appended to the list) if and only if distance, duration and cadence are all
finite and all above zero; otherwise it returns after the alert with the state
otherwise unchanged. -/
theorem running_accepted_iff (E : Env) (s : App) (mapE : LatLng)
    (hev : s.mapEvent = some mapE) (hkind : s.inputType = "running") :
    ((_newWorkout E s).2.workouts
        = s.workouts ++ [Running E (.arr [.num mapE.lat, .num mapE.lng])
            (E.toNumber s.inputDistance) (E.toNumber s.inputDuration)
            (E.toNumber s.inputCadence)]
      ↔ ((E.toNumber s.inputDistance).isFinite = true ∧
         (E.toNumber s.inputDuration).isFinite = true ∧
         (E.toNumber s.inputCadence).isFinite = true ∧
         (E.toNumber s.inputDistance).gtZero = true ∧
         (E.toNumber s.inputDuration).gtZero = true ∧
         (E.toNumber s.inputCadence).gtZero = true)) ∧
    (¬ ((E.toNumber s.inputDistance).isFinite = true ∧
         (E.toNumber s.inputDuration).isFinite = true ∧
         (E.toNumber s.inputCadence).isFinite = true ∧
         (E.toNumber s.inputDistance).gtZero = true ∧
         (E.toNumber s.inputDuration).gtZero = true ∧
         (E.toNumber s.inputCadence).gtZero = true) →
      _newWorkout E s = (.returned, alert s rejection)) := by
  have hrej : ¬ ((E.toNumber s.inputDistance).isFinite = true ∧
         (E.toNumber s.inputDuration).isFinite = true ∧
         (E.toNumber s.inputCadence).isFinite = true ∧
         (E.toNumber s.inputDistance).gtZero = true ∧
         (E.toNumber s.inputDuration).gtZero = true ∧
         (E.toNumber s.inputCadence).gtZero = true) →
      _newWorkout E s = (.returned, alert s rejection) := by
    intro hn
    apply newWorkout_running_rejected E s mapE hev hkind
    by_contra hc
    apply hn
    simpa [validInputs, allPositive, and_assoc] using hc
  refine ⟨⟨?_, ?_⟩, hrej⟩
  · intro happ
    by_contra hn
    rw [hrej hn] at happ
    exact ne_append_singleton _ _ happ
  · intro hgood
    rw [newWorkout_running_passed E s mapE hev hkind
      (by simpa [validInputs, allPositive, and_assoc] using hgood)]
    exact finishWorkout_workouts _ _

/-- Instance of C4 (amended): 5 km, 25 min and 150 spm are accepted. -/
theorem running_accepted_iff_witness :
    (_newWorkout sampleEnv (sampleRun "5" "25" "150")).2.workouts
      = (sampleRun "5" "25" "150").workouts ++
          [Running sampleEnv (.arr [.num (.fin 51), .num (.fin 7)])
            (sampleEnv.toNumber "5") (sampleEnv.toNumber "25") (sampleEnv.toNumber "150")] :=
  (running_accepted_iff sampleEnv (sampleRun "5" "25" "150")
    { lat := .fin 51, lng := .fin 7 } rfl rfl).1.mpr (by decide)

/-- C5. With the pending coordinates bound, a cycling submission is accepted
(the record `new Cycling([lat, lng], distance, duration, elevation)` is appended
to the list) if and only if distance and duration are finite and above zero and
elevation is finite; the sign of elevation is not tested. Otherwise it returns
after the alert with the state otherwise unchanged. -/
theorem cycling_accepted_iff (E : Env) (s : App) (mapE : LatLng)
    (hev : s.mapEvent = some mapE) (hkind : s.inputType = "cycling") :
    ((_newWorkout E s).2.workouts
        = s.workouts ++ [Cycling E (.arr [.num mapE.lat, .num mapE.lng])
            (E.toNumber s.inputDistance) (E.toNumber s.inputDuration)
            (E.toNumber s.inputElevation)]
      ↔ ((E.toNumber s.inputDistance).isFinite = true ∧
         (E.toNumber s.inputDuration).isFinite = true ∧
         (E.toNumber s.inputElevation).isFinite = true ∧
         (E.toNumber s.inputDistance).gtZero = true ∧
         (E.toNumber s.inputDuration).gtZero = true)) ∧
    (¬ ((E.toNumber s.inputDistance).isFinite = true ∧
         (E.toNumber s.inputDuration).isFinite = true ∧
         (E.toNumber s.inputElevation).isFinite = true ∧
         (E.toNumber s.inputDistance).gtZero = true ∧
         (E.toNumber s.inputDuration).gtZero = true) →
      _newWorkout E s = (.returned, alert s rejection)) := by
  have hrej : ¬ ((E.toNumber s.inputDistance).isFinite = true ∧
         (E.toNumber s.inputDuration).isFinite = true ∧
         (E.toNumber s.inputElevation).isFinite = true ∧
         (E.toNumber s.inputDistance).gtZero = true ∧
         (E.toNumber s.inputDuration).gtZero = true) →
      _newWorkout E s = (.returned, alert s rejection) := by
    intro hn
    apply newWorkout_cycling_rejected E s mapE hev hkind
    by_contra hc
    apply hn
    simpa [validInputs, allPositive, and_assoc] using hc
  refine ⟨⟨?_, ?_⟩, hrej⟩
  · intro happ
    by_contra hn
    rw [hrej hn] at happ
    exact ne_append_singleton _ _ happ
  · intro hgood
    rw [newWorkout_cycling_passed E s mapE hev hkind
      (by simpa [validInputs, allPositive, and_assoc] using hgood)]
    exact finishWorkout_workouts _ _

/-- Instance of C5: 20 km and 60 min are accepted with elevation `-150`, and
also with elevation `0`. -/
theorem cycling_accepted_iff_witness :
    sampleEnv.toNumber "-150" = .fin (-150) ∧
    (_newWorkout sampleEnv (sampleRide "20" "60" "-150")).2.workouts
      = (sampleRide "20" "60" "-150").workouts ++
          [Cycling sampleEnv (.arr [.num (.fin 51), .num (.fin 7)])
            (sampleEnv.toNumber "20") (sampleEnv.toNumber "60") (sampleEnv.toNumber "-150")] ∧
    (_newWorkout sampleEnv (sampleRide "20" "60" "0")).2.workouts
      = (sampleRide "20" "60" "0").workouts ++
          [Cycling sampleEnv (.arr [.num (.fin 51), .num (.fin 7)])
            (sampleEnv.toNumber "20") (sampleEnv.toNumber "60") (sampleEnv.toNumber "0")] :=
  ⟨by decide,
   (cycling_accepted_iff sampleEnv (sampleRide "20" "60" "-150")
      { lat := .fin 51, lng := .fin 7 } rfl rfl).1.mpr (by decide),
   (cycling_accepted_iff sampleEnv (sampleRide "20" "60" "0")
      { lat := .fin 51, lng := .fin 7 } rfl rfl).1.mpr (by decide)⟩

/-! ## Submission: effects of an accepted submission -/

theorem renderWorkout_renderable (s : App) (w : JSVal) (hw : renderable w = true) :
    renderWorkout s w
      = (.returned, { s with entries := w :: s.entries, log := s.log ++ [.entry w] }) := by
  unfold renderable at hw
  simp only [Bool.and_eq_true, Bool.not_eq_true', Bool.not_eq_eq_eq_not, Bool.not_true] at hw
  obtain ⟨⟨h1, h2⟩, h3⟩ := hw
  unfold renderWorkout
  simp [h1, h2, h3]

theorem running_renderable (E : Env) (coords : JSVal) (d t c : JSNum) :
    renderable (Running E coords d t c) = true := by
  simp [renderable, Running, Workout, JSVal.isNullish, JSVal.get, JSVal.lookup, JSVal.isStr,
    JSVal.isNum]

theorem cycling_renderable (E : Env) (coords : JSVal) (d t g : JSNum) :
    renderable (Cycling E coords d t g) = true := by
  simp [renderable, Cycling, Workout, JSVal.isNullish, JSVal.get, JSVal.lookup, JSVal.isStr,
    JSVal.isNum]

theorem renderable_not_nullish (w : JSVal) (hw : renderable w = true) :
    w.isNullish = false := by
  unfold renderable at hw
  simp only [Bool.and_eq_true, Bool.not_eq_true', Bool.not_eq_eq_eq_not, Bool.not_true] at hw
  exact hw.1.1

/-- On a loaded map, the tail of `_newWorkout` runs to its end for a record
that can be rendered. -/
theorem finishWorkout_renderable (s : App) (w : JSVal) (markers : List Marker)
    (hmap : s.map = some markers) (hw : renderable w = true) :
    finishWorkout s w = (.returned,
      { s with
        workouts := s.workouts ++ [w]
        map := some (markers ++ [{ coords := w.get "coords", type := w.get "type" }])
        entries := w :: s.entries
        inputDistance := "", inputDuration := "", inputCadence := "", inputElevation := ""
        localStorage := stringify (.arr (s.workouts ++ [w]))
        log := s.log ++ [.push w, .marker { coords := w.get "coords", type := w.get "type" },
                 .entry w, .clearInputs, .setItem (stringify (.arr (s.workouts ++ [w])))] }) := by
  unfold finishWorkout
  simp only [renderWorkoutMarker, renderable_not_nullish w hw, hmap, Outcome.andThen,
    renderWorkout_renderable _ w hw, _setLocalStorage]
  simp

/-- C8. In a state with list `L` in memory, a loaded map and pending click
coordinates `(lat, lng)`, an accepted submission makes `_newWorkout` return
after exactly these effects, in this order: the list becomes `L ++ [w]`, a
marker for `w` is added to the map, an entry for `w` is inserted after the form,
the four inputs are set to the empty string, and the slot `workouts` is set to
the document of `L ++ [w]`. The record `w` is the one the constructor of the
kind builds from `[lat, lng]` and the submitted numbers; nothing else in the
state changes. -/
theorem newWorkout_accepted_effects (E : Env) (s : App) (L : List JSVal)
    (markers : List Marker) (mapE : LatLng)
    (hL : s.workouts = L) (hmap : s.map = some markers) (hev : s.mapEvent = some mapE)
    (hacc :
      (s.inputType = "running" ∧
        (E.toNumber s.inputDistance).isFinite = true ∧
        (E.toNumber s.inputDuration).isFinite = true ∧
        (E.toNumber s.inputCadence).isFinite = true ∧
        (E.toNumber s.inputDistance).gtZero = true ∧
        (E.toNumber s.inputDuration).gtZero = true ∧
        (E.toNumber s.inputCadence).gtZero = true) ∨
      (s.inputType = "cycling" ∧
        (E.toNumber s.inputDistance).isFinite = true ∧
        (E.toNumber s.inputDuration).isFinite = true ∧
        (E.toNumber s.inputElevation).isFinite = true ∧
        (E.toNumber s.inputDistance).gtZero = true ∧
        (E.toNumber s.inputDuration).gtZero = true)) :
    ∃ w : JSVal,
      (s.inputType = "running" →
        w = Running E (.arr [.num mapE.lat, .num mapE.lng]) (E.toNumber s.inputDistance)
              (E.toNumber s.inputDuration) (E.toNumber s.inputCadence) ∧
        w.get "cadence" = .num (E.toNumber s.inputCadence)) ∧
      (s.inputType = "cycling" →
        w = Cycling E (.arr [.num mapE.lat, .num mapE.lng]) (E.toNumber s.inputDistance)
              (E.toNumber s.inputDuration) (E.toNumber s.inputElevation) ∧
        w.get "elevationGain" = .num (E.toNumber s.inputElevation)) ∧
      w.get "coords" = .arr [.num mapE.lat, .num mapE.lng] ∧
      w.get "distance" = .num (E.toNumber s.inputDistance) ∧
      w.get "duration" = .num (E.toNumber s.inputDuration) ∧
      (_newWorkout E s).1 = .returned ∧
      (_newWorkout E s).2.log = s.log ++
        [.push w, .marker { coords := w.get "coords", type := w.get "type" }, .entry w,
         .clearInputs, .setItem (stringify (.arr (L ++ [w])))] ∧
      (_newWorkout E s).2.workouts = L ++ [w] ∧
      (_newWorkout E s).2.map
        = some (markers ++ [{ coords := w.get "coords", type := w.get "type" }]) ∧
      (_newWorkout E s).2.entries = w :: s.entries ∧
      (_newWorkout E s).2.inputDistance = "" ∧
      (_newWorkout E s).2.inputDuration = "" ∧
      (_newWorkout E s).2.inputCadence = "" ∧
      (_newWorkout E s).2.inputElevation = "" ∧
      (_newWorkout E s).2.localStorage = stringify (.arr (L ++ [w])) ∧
      stringify (.arr (L ++ [w])) = some (.arr (stringifyElems (L ++ [w]))) ∧
      (_newWorkout E s).2.inputType = s.inputType ∧
      (_newWorkout E s).2.formHidden = s.formHidden ∧
      (_newWorkout E s).2.mapEvent = s.mapEvent := by
  subst hL
  rcases hacc with ⟨hk, h⟩ | ⟨hk, h⟩
  · refine ⟨Running E (.arr [.num mapE.lat, .num mapE.lng]) (E.toNumber s.inputDistance)
      (E.toNumber s.inputDuration) (E.toNumber s.inputCadence), ?_⟩
    have hne : ¬ ("running" = "cycling") := by decide
    rw [newWorkout_running_passed E s mapE hev hk
        (by simpa [validInputs, allPositive, and_assoc] using h),
      finishWorkout_renderable s _ markers hmap (running_renderable _ _ _ _ _)]
    simp [hk, hne, stringify, Running, Workout, JSVal.get, JSVal.lookup]
  · refine ⟨Cycling E (.arr [.num mapE.lat, .num mapE.lng]) (E.toNumber s.inputDistance)
      (E.toNumber s.inputDuration) (E.toNumber s.inputElevation), ?_⟩
    have hne : ¬ ("cycling" = "running") := by decide
    rw [newWorkout_cycling_passed E s mapE hev hk
        (by simpa [validInputs, allPositive, and_assoc] using h),
      finishWorkout_renderable s _ markers hmap (cycling_renderable _ _ _ _ _)]
    simp [hk, hne, stringify, Cycling, Workout, JSVal.get, JSVal.lookup]

/-- Instance of C8: the open sample form with 5 km, 25 min and 150 spm. -/
theorem newWorkout_accepted_effects_witness :
    (_newWorkout sampleEnv (sampleRun "5" "25" "150")).1 = .returned ∧
    (_newWorkout sampleEnv (sampleRun "5" "25" "150")).2.workouts
      = [] ++ [Running sampleEnv (.arr [.num (.fin 51), .num (.fin 7)])
          (sampleEnv.toNumber "5") (sampleEnv.toNumber "25") (sampleEnv.toNumber "150")] ∧
    (_newWorkout sampleEnv (sampleRun "5" "25" "150")).2.localStorage
      = stringify (.arr ([] ++ [Running sampleEnv (.arr [.num (.fin 51), .num (.fin 7)])
          (sampleEnv.toNumber "5") (sampleEnv.toNumber "25") (sampleEnv.toNumber "150")])) := by
  obtain ⟨w, hr, -, -, -, -, hret, -, hw, -, -, -, -, -, -, hs, -⟩ :=
    newWorkout_accepted_effects sampleEnv (sampleRun "5" "25" "150") [] []
      { lat := .fin 51, lng := .fin 7 } rfl rfl rfl (Or.inl (by decide))
  have hrec := (hr rfl).1
  subst hrec
  exact ⟨hret, hw, hs⟩

/-! ## Storage -/

/-- C10. When the slot `workouts` is absent, `_getLocalStorage` returns without
an error and changes nothing: no entry is rendered and the list in memory stays
as it is, which at start-up is the empty list. `_clearLocalStorage` leaves the
slot absent whatever it held, so the controller built after the reload starts
with the empty list. -/
theorem getLocalStorage_absent_slot (s : App) (h : s.localStorage = none) :
    _getLocalStorage s = (.returned, s) ∧
    (App.create s).1 = .returned ∧
    (App.create s).2.workouts = [] ∧
    (App.create s).2.entries = s.entries ∧
    (∀ t : App, (_clearLocalStorage t).localStorage = none ∧
      (App.create (_clearLocalStorage t)).1 = .returned ∧
      (App.create (_clearLocalStorage t)).2.workouts = [] ∧
      (App.create (_clearLocalStorage t)).2.entries = t.entries) := by
  have key : ∀ u : App, u.localStorage = none → _getLocalStorage u = (.returned, u) := by
    intro u hu
    simp [_getLocalStorage, hu, JSVal.truthy]
  have hfresh : ∀ u : App, u.localStorage = none →
      App.create u = (.returned, App.fresh u) := by
    intro u hu
    exact key (App.fresh u) hu
  refine ⟨key s h, ?_, ?_, ?_, ?_⟩
  · rw [hfresh s h]
  · rw [hfresh s h]; rfl
  · rw [hfresh s h]; rfl
  · intro t
    have ht : (_clearLocalStorage t).localStorage = none := rfl
    refine ⟨ht, ?_, ?_, ?_⟩
    · rw [hfresh _ ht]
    · rw [hfresh _ ht]; rfl
    · rw [hfresh _ ht]; rfl

/-- Instance of C10: the sample page, whose slot is absent. -/
theorem getLocalStorage_absent_slot_witness :
    samplePage.localStorage = none ∧
    (_getLocalStorage samplePage).1 = .returned ∧
    (_getLocalStorage samplePage).2.workouts = [] ∧
    (_getLocalStorage samplePage).2.entries = [] := by
  have h := (getLocalStorage_absent_slot samplePage rfl).1
  refine ⟨rfl, ?_, ?_, ?_⟩ <;> rw [h] <;> rfl

/-! ## Storage: saving and loading -/

/-- What `JSON.parse` gives back for a saved record whose metric is finite: the
same properties, with the text of the date in place of the `Date` object. -/
theorem parse_stringify_record (c : Creation) (hfin : c.metric.isFinite = true) :
    ∃ w : JSVal,
      parse ((stringify c.record).getD .null) = w ∧
      renderable w = true ∧
      w.get "date" = .str c.env.newDate.toISOString ∧
      ∀ k : String, k ≠ "date" → w.get k = c.record.get k := by
  refine ⟨_, rfl, ?_, ?_, ?_⟩
  · cases hr : c.running
    · have hm : (calcSpeed (.fin c.distance) (.fin c.duration)).isFinite = true := by
        simpa [Creation.metric, hr] using hfin
      cases hq : calcSpeed (.fin c.distance) (.fin c.duration) <;> simp [hq, JSNum.isFinite] at hm
      simp [Creation.record, hr, Cycling, Workout, stringify, stringifyProps, stringifyElems,
        parse, parseMembers, parseElems, hq, renderable, JSVal.isNullish, JSVal.get,
        JSVal.lookup, JSVal.isStr, JSVal.isNum]
    · have hm : (calcPace (.fin c.duration) (.fin c.distance)).isFinite = true := by
        simpa [Creation.metric, hr] using hfin
      cases hq : calcPace (.fin c.duration) (.fin c.distance) <;> simp [hq, JSNum.isFinite] at hm
      simp [Creation.record, hr, Running, Workout, stringify, stringifyProps, stringifyElems,
        parse, parseMembers, parseElems, hq, renderable, JSVal.isNullish, JSVal.get,
        JSVal.lookup, JSVal.isStr, JSVal.isNum]
  · cases hr : c.running
    · have hm : (calcSpeed (.fin c.distance) (.fin c.duration)).isFinite = true := by
        simpa [Creation.metric, hr] using hfin
      cases hq : calcSpeed (.fin c.distance) (.fin c.duration) <;> simp [hq, JSNum.isFinite] at hm
      simp [Creation.record, hr, Cycling, Workout, stringify, stringifyProps, stringifyElems,
        parse, parseMembers, parseElems, hq, JSVal.get, JSVal.lookup]
    · have hm : (calcPace (.fin c.duration) (.fin c.distance)).isFinite = true := by
        simpa [Creation.metric, hr] using hfin
      cases hq : calcPace (.fin c.duration) (.fin c.distance) <;> simp [hq, JSNum.isFinite] at hm
      simp [Creation.record, hr, Running, Workout, stringify, stringifyProps, stringifyElems,
        parse, parseMembers, parseElems, hq, JSVal.get, JSVal.lookup]
  · intro k hk
    have hk2 : ¬ ("date" = k) := fun h => hk h.symm
    cases hr : c.running
    · have hm : (calcSpeed (.fin c.distance) (.fin c.duration)).isFinite = true := by
        simpa [Creation.metric, hr] using hfin
      cases hq : calcSpeed (.fin c.distance) (.fin c.duration) <;> simp [hq, JSNum.isFinite] at hm
      simp [Creation.record, hr, Cycling, Workout, stringify, stringifyProps, stringifyElems,
        parse, parseMembers, parseElems, hq, JSVal.get, JSVal.lookup, hk2]
    · have hm : (calcPace (.fin c.duration) (.fin c.distance)).isFinite = true := by
        simpa [Creation.metric, hr] using hfin
      cases hq : calcPace (.fin c.duration) (.fin c.distance) <;> simp [hq, JSNum.isFinite] at hm
      simp [Creation.record, hr, Running, Workout, stringify, stringifyProps, stringifyElems,
        parse, parseMembers, parseElems, hq, JSVal.get, JSVal.lookup, hk2]

/-- Loading a list of records that can all be rendered returns, with the list
in memory as given to the loop. -/
theorem forEach_renderWorkout (ws : List JSVal) (h : ∀ w ∈ ws, renderable w = true) (s : App) :
    (forEach renderWorkout ws s).1 = .returned ∧
    (forEach renderWorkout ws s).2.workouts = s.workouts := by
  induction ws generalizing s with
  | nil => exact ⟨rfl, rfl⟩
  | cons w rest ih =>
      have hw := h w (List.mem_cons_self _ _)
      have hrest : ∀ v ∈ rest, renderable v = true :=
        fun v hv => h v (List.mem_cons_of_mem _ hv)
      simp only [forEach, renderWorkout_renderable s w hw, Outcome.andThen]
      exact ih hrest _

/-- Element by element, parsing the saved document of a list of created
records gives records related to the originals as in `parse_stringify_record`. -/
theorem parse_stringify_list (cs : List Creation)
    (hfin : ∀ c ∈ cs, c.metric.isFinite = true) :
    (∀ w ∈ parseElems (stringifyElems (cs.map Creation.record)), renderable w = true) ∧
    List.Forall₂
      (fun c w => w.get "date" = .str c.env.newDate.toISOString ∧
        ∀ k : String, k ≠ "date" → w.get k = c.record.get k)
      cs (parseElems (stringifyElems (cs.map Creation.record))) := by
  induction cs with
  | nil =>
      refine ⟨?_, ?_⟩
      · intro w hw
        simp [stringifyElems, parseElems] at hw
      · simp [stringifyElems, parseElems]
  | cons c rest ih =>
      have hc := hfin c (List.mem_cons_self _ _)
      obtain ⟨ihr, ihf⟩ := ih (fun d hmem => hfin d (List.mem_cons_of_mem _ hmem))
      obtain ⟨w, hw, hren, hdate, hother⟩ := parse_stringify_record c hc
      simp only [List.map_cons, stringifyElems, parseElems, hw]
      refine ⟨?_, List.Forall₂.cons ⟨hdate, hother⟩ ihf⟩
      intro v hv
      rcases List.mem_cons.mp hv with hv | hv
      · rw [hv]; exact hren
      · exact ihr v hv

/-- With an array document in the slot, `_getLocalStorage` takes the parsed
elements as the list in memory and renders them in order. -/
theorem getLocalStorage_array (t : App) (docs : List JSON)
    (h : t.localStorage = some (.arr docs)) :
    _getLocalStorage t
      = forEach renderWorkout (parseElems docs) { t with workouts := parseElems docs } := by
  simp [_getLocalStorage, h, parse, JSVal.truthy]

/-- C6 as stated fails in two ways. On the field `date`: the sample running
record holds a `Date` object before saving; after `_setLocalStorage` and
`_getLocalStorage` (in the same controller, or in the one built after a reload)
it holds the text `toJSON` gave for that date. On a metric that is not finite:
the record `sampleSteep` has pace `Infinity`, which is saved as `null`, and
`_getLocalStorage` then ends in a `TypeError` when it renders the record. -/
theorem reload_changes_record :
    sampleSaved.workouts = [sampleCreation.record] ∧
    sampleSaved.workouts.map (fun w => w.get "date") = [.date sampleEnv.newDate] ∧
    (_getLocalStorage (_setLocalStorage sampleSaved).2).1 = .returned ∧
    (_getLocalStorage (_setLocalStorage sampleSaved).2).2.workouts.map (fun w => w.get "date")
      = [.str "2026-11-04T09:30:00.000Z"] ∧
    (App.create (_setLocalStorage sampleSaved).2).2.workouts.map (fun w => w.get "date")
      = [.str "2026-11-04T09:30:00.000Z"] ∧
    JSVal.str "2026-11-04T09:30:00.000Z" ≠ JSVal.date sampleEnv.newDate ∧
    sampleSteepState.workouts = [sampleSteep] ∧
    sampleSteep.get "pace" = .num .posInf ∧
    (_getLocalStorage (_setLocalStorage sampleSteepState).2).2.workouts.map
      (fun w => w.get "pace") = [.null] ∧
    (_getLocalStorage (_setLocalStorage sampleSteepState).2).1 = .thrown "TypeError" := by
  have hs : calcPace (.fin sampleLarge) (.fin sampleSmall) = .posInf := by
    decide!
  have hrec : sampleSteep = .obj
      [("date", .date sampleEnv.newDate), ("id", .str (workoutId sampleEnv.dateNow)),
       ("coords", .arr [.num (.fin 51), .num (.fin 7)]),
       ("distance", .num (.fin sampleSmall)), ("duration", .num (.fin sampleLarge)),
       ("type", .str "running"), ("cadence", .num (.fin 150)), ("pace", .num .posInf),
       ("description", .str (_setDescription "running" sampleEnv.newDate))] := by
    simp only [sampleSteep, Running, Workout, List.cons_append, List.nil_append, hs]
  have hm : sampleCreation.metric = .fin 5 := by
    decide!
  have hfin : ∀ c ∈ [sampleCreation], c.metric.isFinite = true := by
    intro c hc
    rw [List.mem_singleton.mp hc, hm]
    rfl
  obtain ⟨hren, hall⟩ := parse_stringify_list [sampleCreation] hfin
  have hw : sampleSaved.workouts = [sampleCreation].map Creation.record := rfl
  have hslotS : (_setLocalStorage sampleSaved).2.localStorage
      = some (.arr (stringifyElems ([sampleCreation].map Creation.record))) := by
    show stringify (.arr sampleSaved.workouts) = _
    rw [hw]
    simp only [stringify]
  have hdateS : (parseElems (stringifyElems ([sampleCreation].map Creation.record))).map
      (fun w => w.get "date") = [.str "2026-11-04T09:30:00.000Z"] := by
    cases hall with
    | cons hhead htail =>
        cases htail
        simp only [List.map_cons, List.map_nil, hhead.1]
        rfl
  have hloadS := getLocalStorage_array (_setLocalStorage sampleSaved).2 _ hslotS
  have hloadF := getLocalStorage_array (App.fresh (_setLocalStorage sampleSaved).2) _ hslotS
  have hrunS := forEach_renderWorkout _ hren
    { (_setLocalStorage sampleSaved).2 with
      workouts := parseElems (stringifyElems ([sampleCreation].map Creation.record)) }
  have hrunF := forEach_renderWorkout _ hren
    { App.fresh (_setLocalStorage sampleSaved).2 with
      workouts := parseElems (stringifyElems ([sampleCreation].map Creation.record)) }
  have hload : _getLocalStorage (_setLocalStorage sampleSteepState).2
      = (.thrown "TypeError",
          { (_setLocalStorage sampleSteepState).2 with
            workouts := parseElems (stringifyElems [sampleSteep]) }) := by
    simp [_getLocalStorage, _setLocalStorage, sampleSteepState, hrec, stringify, stringifyElems,
      stringifyProps, parse, parseElems, parseMembers, JSVal.truthy, forEach, renderWorkout,
      Outcome.andThen, JSVal.isNullish, JSVal.get, JSVal.lookup, JSVal.isStr, JSVal.isNum]
  refine ⟨rfl, rfl, ?_, ?_, ?_, ?_, rfl, ?_, ?_, ?_⟩
  · rw [hloadS]
    exact hrunS.1
  · rw [hloadS, hrunS.2]
    exact hdateS
  · show (_getLocalStorage (App.fresh (_setLocalStorage sampleSaved).2)).2.workouts.map _ = _
    rw [hloadF, hrunF.2]
    exact hdateS
  · intro h
    exact JSVal.noConfusion h
  · rw [hrec]
    simp [JSVal.get, JSVal.lookup]
  · rw [hload]
    simp [hrec, stringify, stringifyElems, stringifyProps, parse, parseElems, parseMembers,
      JSVal.get, JSVal.lookup]
  · rw [hload]

/-- C6, amended. Let the list in memory hold records the constructors built
from finite numbers and whose pace or speed is finite. After
`_setLocalStorage`, a call of `_getLocalStorage` in any state with that slot
returns and leaves in memory a list of the same length and order in which each
record has, for every property other than `date`, the value it had before
saving, and for `date` the text `toJSON` gives for the saved date. -/
theorem save_then_load (cs : List Creation) (s t : App)
    (hfin : ∀ c ∈ cs, c.metric.isFinite = true)
    (hs : s.workouts = cs.map Creation.record)
    (ht : t.localStorage = (_setLocalStorage s).2.localStorage) :
    (_getLocalStorage t).1 = .returned ∧
    (_getLocalStorage t).2.workouts.length = s.workouts.length ∧
    List.Forall₂
      (fun c w => w.get "date" = .str c.env.newDate.toISOString ∧
        ∀ k : String, k ≠ "date" → w.get k = c.record.get k)
      cs (_getLocalStorage t).2.workouts := by
  obtain ⟨hren, hall⟩ := parse_stringify_list cs hfin
  have hslot : t.localStorage = some (.arr (stringifyElems (cs.map Creation.record))) := by
    rw [ht]
    simp [_setLocalStorage, stringify, hs]
  have hget := getLocalStorage_array t _ hslot
  obtain ⟨hret, hws⟩ := forEach_renderWorkout _ hren
    { t with workouts := parseElems (stringifyElems (cs.map Creation.record)) }
  rw [hget]
  refine ⟨hret, ?_, ?_⟩
  · rw [hws, hs]
    have := hall.length_eq
    simp only [List.length_map]
    exact this.symm
  · rw [hws]
    exact hall

/-- Instance of C6 (amended): the sample record, whose pace is 5, saved and
loaded after a reload. -/
theorem save_then_load_witness :
    sampleCreation.metric = .fin 5 ∧
    sampleSaved.workouts = [sampleCreation].map Creation.record ∧
    (_getLocalStorage (App.fresh sampleSaved)).1 = .returned ∧
    (_getLocalStorage (App.fresh sampleSaved)).2.workouts.length
      = sampleSaved.workouts.length := by
  have hm : sampleCreation.metric = .fin 5 := by decide!
  have hfin : ∀ c ∈ [sampleCreation], c.metric.isFinite = true := by
    intro c hc
    rw [List.mem_singleton.mp hc, hm]
    rfl
  have h := save_then_load [sampleCreation] sampleSaved (App.fresh sampleSaved) hfin
    rfl rfl
  exact ⟨hm, rfl, h.1, h.2.1⟩

end Mapty
